import Mathlib

set_option maxRecDepth 100000
set_option autoImplicit false

/-!
Verification of the `listening_service` real-time audio pipeline
(`vad_processor.py`, `chunking_processor.py`, `config.py`).

The Python services are embedded as pure state machines:
* the VAD segmenter (`VadProcessorService`) becomes a step function on
  `VadState`, parameterised by the suppression map and the external
  speech classifier;
* the duration-based splitter (`ChunkingProcessorService`) becomes a
  step function on `ChunkState`;
* noise-suppression orchestration (`learn_noise_profile` and the
  per-frame reduction block) is embedded over exact rationals standing
  for the float domain, with the external `noisereduce` transform as an
  `Option`-valued parameter (`none` = the transform raised).
-/

/-- `Settings.MAX_SILENT_CHUNKS` (config.py):
`SILENCE_THRESHOLD_MS // CHUNK_DURATION_MS`. -/
def MAX_SILENT_CHUNKS (silence_threshold_ms chunk_duration_ms : Nat) : Nat :=
  silence_threshold_ms / chunk_duration_ms

/-- `Settings.PRE_BUFFER_SIZE` (config.py):
`int(PRE_BUFFER_DURATION_MS / CHUNK_DURATION_MS)`. -/
def PRE_BUFFER_SIZE (pre_buffer_duration_ms chunk_duration_ms : Nat) : Nat :=
  pre_buffer_duration_ms / chunk_duration_ms

/-- The configuration the VAD processor reads from `settings`. -/
structure VadConfig where
  preBufferSize : Nat
  maxSilentChunks : Nat
deriving DecidableEq

/-- The mutable state of `VadProcessorService` that the processing loop
touches: the pre-roll deque, the active recording list, the trigger
flag, the silent-chunk counter, and whether `start_time` is set
(`start_time` is a `datetime`, always truthy when set; only its
presence matters to `_save_current_recording`). -/
structure VadState (F : Type) where
  pre_buffer_frames : List F
  current_recording : List F
  triggered : Bool
  silent_chunks : Nat
  start_time_set : Bool
deriving DecidableEq

/-- `collections.deque(maxlen := cap)` append: add on the right, evict
from the left once over capacity. The list is oldest-first, matching
`list(deque)`. -/
def pushRing {F : Type} (cap : Nat) (buf : List F) (x : F) : List F :=
  let b := buf ++ [x]
  b.drop (b.length - cap)

/-- `_save_current_recording`: emits the recording only when
`start_time` is set and `current_recording` is non-empty. -/
def saveRecording {F : Type} (s : VadState F) : Option (List F) :=
  if s.start_time_set && !s.current_recording.isEmpty then
    some s.current_recording
  else none

/-- `_reset_state`: clears trigger, counter, recording and
`start_time`; deliberately leaves `pre_buffer_frames` alone
(the source comment says the pre-buffer is rolling). -/
def resetState {F : Type} (s : VadState F) : VadState F :=
  { s with triggered := false, start_time_set := false,
           silent_chunks := 0, current_recording := [] }

/-- State right after `start()` (`_reset_state` plus
`pre_buffer_frames.clear()`). -/
def initState {F : Type} : VadState F := ⟨[], [], false, 0, false⟩

/-- One dequeued frame through the body of `_process_audio`:
suppression (`sup`), classification of the suppressed frame (`cls`),
then the Idle/Triggered branches. Returns the next state and the
segment handed to storage, if any. -/
def processFrame {F : Type} (cfg : VadConfig) (sup : F → F) (cls : F → Bool)
    (s : VadState F) (frame : F) : VadState F × Option (List F) :=
  let f := sup frame
  if s.triggered = false then
    let pre := pushRing cfg.preBufferSize s.pre_buffer_frames f
    if cls f then
      ({ s with pre_buffer_frames := pre, triggered := true,
                current_recording := pre, silent_chunks := 0,
                start_time_set := true }, none)
    else
      ({ s with pre_buffer_frames := pre }, none)
  else
    let rec1 := s.current_recording ++ [f]
    if cls f then
      ({ s with current_recording := rec1, silent_chunks := 0 }, none)
    else
      let sc := s.silent_chunks + 1
      if cfg.maxSilentChunks < sc then
        (resetState { s with current_recording := rec1, silent_chunks := sc },
         saveRecording { s with current_recording := rec1, silent_chunks := sc })
      else
        ({ s with current_recording := rec1, silent_chunks := sc }, none)

/-- The `queue.Empty` branch of `_process_audio`: save and reset only
when triggered and the counter already exceeds twice the threshold. -/
def processEmpty {F : Type} (cfg : VadConfig) (s : VadState F) :
    VadState F × Option (List F) :=
  if s.triggered = true ∧ cfg.maxSilentChunks * 2 < s.silent_chunks then
    (resetState s, saveRecording s)
  else (s, none)

/-- One poll-loop iteration: either a frame was dequeued or the queue
timed out empty. -/
inductive VadEvent (F : Type) where
  | frame (f : F)
  | empty
deriving DecidableEq

/-- Dispatch one event of the processing loop. -/
def processEvent {F : Type} (cfg : VadConfig) (sup : F → F) (cls : F → Bool)
    (s : VadState F) : VadEvent F → VadState F × Option (List F)
  | .frame f => processFrame cfg sup cls s f
  | .empty => processEmpty cfg s

/-- Run a list of events, collecting segments handed to storage in
order. -/
def runEvents {F : Type} (cfg : VadConfig) (sup : F → F) (cls : F → Bool)
    (s : VadState F) : List (VadEvent F) → VadState F × List (List F)
  | [] => (s, [])
  | e :: es =>
    let r := processEvent cfg sup cls s e
    let r2 := runEvents cfg sup cls r.1 es
    (r2.1, r.2.toList ++ r2.2)

/-- Run a list of dequeued frames, collecting segments handed to
storage in order. -/
def runFrames {F : Type} (cfg : VadConfig) (sup : F → F) (cls : F → Bool)
    (s : VadState F) : List F → VadState F × List (List F)
  | [] => (s, [])
  | f :: fs =>
    let r := processFrame cfg sup cls s f
    let r2 := runFrames cfg sup cls r.1 fs
    (r2.1, r.2.toList ++ r2.2)

/-- `stop()` of the VAD service: save the partial segment when
triggered, then reset (the pre-buffer again stays). -/
def vadStop {F : Type} (s : VadState F) : VadState F × Option (List F) :=
  (resetState s, if s.triggered = true then saveRecording s else none)

/-- States the processing loop can reach from a fresh `start()`. -/
inductive Reachable {F : Type} (cfg : VadConfig) (sup : F → F) (cls : F → Bool) :
    VadState F → Prop where
  | init : Reachable cfg sup cls initState
  | step : ∀ {s : VadState F} (e : VadEvent F),
      Reachable cfg sup cls s → Reachable cfg sup cls (processEvent cfg sup cls s e).1

/-- The configuration of the spec's concrete scenario:
pre-roll 300 ms / 30 ms frames, silence threshold 2000 ms. -/
def c1Cfg : VadConfig :=
  ⟨PRE_BUFFER_SIZE 300 30, MAX_SILENT_CHUNKS 2000 30⟩

/-- The frame schedule of the concrete scenario; a frame is its own
classification (`true` = speech). -/
def c1Frames : List Bool :=
  List.replicate 10 false ++ [true] ++ List.replicate 5 true ++
    List.replicate 67 false

/-- Configuration for the small hand-checked runs: pre-roll capacity
2, `max_silent_chunks` 1. -/
def c2Cfg : VadConfig := ⟨2, 1⟩

/-- Classifier for the duplication run: frames 1 and 4 are speech. -/
def c2Cls (n : Nat) : Bool := n == 1 || n == 4

/-- A concrete `Triggered` state for the C4 witness: recording `[5]`,
counter 1 at threshold `max_silent_chunks = 1`. -/
def c4State : VadState Nat := ⟨[], [5], true, 1, true⟩

/-- Classifier for the C4 and C5 witnesses: only frame 1 is speech. -/
def c4Cls (n : Nat) : Bool := n == 1

/-- The mutable state of `ChunkingProcessorService`: the buffered
frames of the chunk in progress and whether `start_time` is set. -/
structure ChunkState (F : Type) where
  frames : List F
  start_time_set : Bool
deriving DecidableEq

/-- Modelled from the spec: the configuration value
`TARGET_CHUNKS_PER_FILE`, read by `chunking_processor.py` but absent
from `config.py` under `src/`; the spec computes it as
`ceil(target_duration_ms / frame_duration_ms)`. -/
def TARGET_CHUNKS_PER_FILE (target_duration_ms frame_duration_ms : Nat) : Nat :=
  (target_duration_ms + frame_duration_ms - 1) / frame_duration_ms

/-- `_save_current_chunk`: emits the buffered frames only when
`start_time` is set and the buffer is non-empty. -/
def saveChunk {F : Type} (s : ChunkState F) : Option (List F) :=
  if s.start_time_set && !s.frames.isEmpty then some s.frames else none

/-- `_reset_chunk_state` / the state right after `start()`. -/
def initChunkState {F : Type} : ChunkState F := ⟨[], false⟩

/-- One dequeued frame through the body of the splitter's
`_process_audio`: set `start_time` if unset, append the frame, and if
the buffer has reached `target` frames, save and reset. -/
def chunkProcessFrame {F : Type} (target : Nat) (s : ChunkState F) (f : F) :
    ChunkState F × Option (List F) :=
  let s1 : ChunkState F := ⟨s.frames ++ [f], true⟩
  if target ≤ s1.frames.length then (initChunkState, saveChunk s1)
  else (s1, none)

/-- Run a list of dequeued frames through the splitter, collecting the
chunks handed to storage in order. -/
def runChunks {F : Type} (target : Nat) (s : ChunkState F) :
    List F → ChunkState F × List (List F)
  | [] => (s, [])
  | f :: fs =>
    let r := chunkProcessFrame target s f
    let r2 := runChunks target r.1 fs
    (r2.1, r.2.toList ++ r2.2)

/-- `stop()` of the splitter: flush any partial buffer as a final
chunk, then reset. -/
def chunkStop {F : Type} (s : ChunkState F) : ChunkState F × Option (List F) :=
  (initChunkState, if !s.frames.isEmpty then saveChunk s else none)

/-- `int16` sample to the suppression transform's float domain
(`astype(np.float32) / 32768.0`), over exact rationals. -/
def int16ToFloat (x : ℤ) : ℚ := (x : ℚ) / 32768

/-- Truncation toward zero, as a C-style float-to-int cast does. -/
def ratTrunc (q : ℚ) : ℤ := Int.tdiv q.num (q.den : ℤ)

/-- Wrap an integer into the `int16` range, as numpy's
`astype(np.int16)` wraps modulo `2^16`. -/
def toInt16Wrap (n : ℤ) : ℤ :=
  let m := n % 65536
  if 32768 ≤ m then m - 65536 else m

/-- Float-domain sample back to `int16`
(`(x * 32768.0).astype(np.int16)`). -/
def floatToInt16 (q : ℚ) : ℤ := toInt16Wrap (ratTrunc (q * 32768))

/-- The noise-reduction block of `_process_audio`: pass-through when no
profile is set; otherwise convert to floats, call the external
transform (`none` models `nr.reduce_noise` raising), convert back —
and on failure fall back to the original chunk. -/
def suppress (denoise : List ℚ → List ℚ → Option (List ℚ))
    (noise_clip : Option (List ℚ)) (frame : List ℤ) : List ℤ :=
  match noise_clip with
  | none => frame
  | some clip =>
    match denoise (frame.map int16ToFloat) clip with
    | some out => out.map floatToInt16
    | none => frame

/-- `learn_noise_profile`: on empty input the stored profile is set to
`None` and the call returns; otherwise the sample is converted to the
float domain (`astype(np.float32) / 32768.0`, the `int16` path) and
stored. The result is the new value of `noise_clip`; the previous
value `prev` is overwritten unconditionally. -/
def learn_noise_profile (prev : Option (List ℚ)) (noise_audio : List ℤ) :
    Option (List ℚ) :=
  if noise_audio.isEmpty then none
  else some (noise_audio.map int16ToFloat)

/-- Any single loop iteration keeps the silent-chunk counter at or
below the threshold: the close-and-reset branch fires in the very
iteration that pushes it past. -/
theorem silent_le_of_step {F : Type} (cfg : VadConfig) (sup : F → F)
    (cls : F → Bool) (s : VadState F) (e : VadEvent F)
    (h : s.silent_chunks ≤ cfg.maxSilentChunks) :
    (processEvent cfg sup cls s e).1.silent_chunks ≤ cfg.maxSilentChunks := by
  cases e with
  | frame f =>
    simp only [processEvent, processFrame]
    split_ifs <;> simp_all [resetState]
  | empty =>
    simp only [processEvent, processEmpty]
    split_ifs <;> simp_all [resetState]

/-- At every queue-poll point of the processing loop the counter is at
or below the threshold. -/
theorem silent_le_of_reachable {F : Type} (cfg : VadConfig) (sup : F → F)
    (cls : F → Bool) (s : VadState F) (h : Reachable cfg sup cls s) :
    s.silent_chunks ≤ cfg.maxSilentChunks := by
  induction h with
  | init => simp [initState]
  | step e _ ih => exact silent_le_of_step cfg sup cls _ e ih

/-- In every reachable state the `queue.Empty` branch is a no-op: its
guard `silent_chunks > max_silent_chunks * 2` can never hold at a poll
point. -/
theorem processEmpty_eq_of_reachable {F : Type} (cfg : VadConfig) (sup : F → F)
    (cls : F → Bool) (s : VadState F) (h : Reachable cfg sup cls s) :
    processEmpty cfg s = (s, none) := by
  have hle := silent_le_of_reachable cfg sup cls s h
  simp only [processEmpty]
  rw [if_neg]
  rintro ⟨-, hgt⟩
  omega

/-- C10: in every reachable state of the segmenter's processing loop,
the silent-chunk counter is at most `max_silent_chunks` at each
queue-poll point, the transient value it takes inside an iteration is
at most `max_silent_chunks + 1`, and (for `max_silent_chunks ≥ 1`) the
empty-queue stall condition `silent_chunks > 2 * max_silent_chunks` is
never satisfied. -/
theorem c10_silent_counter_invariant {F : Type} (cfg : VadConfig)
    (sup : F → F) (cls : F → Bool) (s : VadState F)
    (h : Reachable cfg sup cls s) :
    s.silent_chunks ≤ cfg.maxSilentChunks ∧
    s.silent_chunks + 1 ≤ cfg.maxSilentChunks + 1 ∧
    (1 ≤ cfg.maxSilentChunks →
      ¬ (s.triggered = true ∧ cfg.maxSilentChunks * 2 < s.silent_chunks)) := by
  have hle := silent_le_of_reachable cfg sup cls s h
  refine ⟨hle, by omega, fun _ => ?_⟩
  rintro ⟨-, hgt⟩
  omega

/-- Witness for C10 at the initial state of the scenario
configuration. -/
theorem c10_silent_counter_invariant_witness :
    Reachable c1Cfg id id (initState (F := Bool)) ∧
    ((initState (F := Bool)).silent_chunks ≤ c1Cfg.maxSilentChunks ∧
     (initState (F := Bool)).silent_chunks + 1 ≤ c1Cfg.maxSilentChunks + 1 ∧
     (1 ≤ c1Cfg.maxSilentChunks →
       ¬ ((initState (F := Bool)).triggered = true ∧
          c1Cfg.maxSilentChunks * 2 < (initState (F := Bool)).silent_chunks))) :=
  ⟨Reachable.init,
   c10_silent_counter_invariant c1Cfg id id initState Reachable.init⟩

/-- C3: the stall-handling forced close never happens. From any
reachable state — in particular any reachable `Triggered` state — any
number of empty-queue polls leaves the state unchanged and hands
nothing to storage, because empty polls never increment the
silent-chunk counter and the counter never exceeds
`max_silent_chunks` at a poll point, so the guard
`silent_chunks > max_silent_chunks * 2` is unreachable. -/
theorem c3_stall_close_never_fires {F : Type} (cfg : VadConfig)
    (sup : F → F) (cls : F → Bool) (s : VadState F)
    (h : Reachable cfg sup cls s) (n : Nat) :
    runEvents cfg sup cls s (List.replicate n VadEvent.empty) = (s, []) := by
  induction n with
  | zero => simp [runEvents]
  | succ n ih =>
    simp only [List.replicate_succ, runEvents, processEvent]
    rw [processEmpty_eq_of_reachable cfg sup cls s h]
    simp [ih]

/-- Dropping fewer elements than the length preserves the last
element. -/
theorem getLast?_drop_of_lt {F : Type} :
    ∀ (l : List F) (n : Nat), n < l.length →
      (l.drop n).getLast? = l.getLast? := by
  intro l
  induction l with
  | nil => intro n h; simp at h
  | cons a l ih =>
    intro n h
    cases n with
    | zero => simp
    | succ n =>
      have hl : n < l.length := by simpa using h
      simp only [List.drop_succ_cons]
      rw [ih n hl]
      cases l with
      | nil => simp at hl
      | cons b l2 => simp

/-- With positive capacity, the deque append keeps the appended frame
as the newest (last) element. -/
theorem pushRing_getLast? {F : Type} (cap : Nat) (hcap : 0 < cap)
    (buf : List F) (x : F) :
    (pushRing cap buf x).getLast? = some x := by
  unfold pushRing
  have hlt : (buf ++ [x]).length - cap < (buf ++ [x]).length := by
    simp only [List.length_append, List.length_singleton]
    omega
  rw [getLast?_drop_of_lt _ _ hlt, List.getLast?_concat]

/-- While the segmenter stays `Triggered` and no segment is handed to
storage, the pre-roll deque is untouched, `start_time` stays set, and
the recording only grows by appending at the end. -/
theorem runFrames_no_close {F : Type} (cfg : VadConfig) (sup : F → F)
    (cls : F → Bool) :
    ∀ (gs : List F) (t : VadState F), t.triggered = true →
      t.start_time_set = true →
      (runFrames cfg sup cls t gs).2 = [] →
      (runFrames cfg sup cls t gs).1.triggered = true ∧
      (runFrames cfg sup cls t gs).1.start_time_set = true ∧
      (runFrames cfg sup cls t gs).1.pre_buffer_frames = t.pre_buffer_frames ∧
      ∃ ext, (runFrames cfg sup cls t gs).1.current_recording
        = t.current_recording ++ ext := by
  intro gs
  induction gs with
  | nil =>
    intro t ht hst _
    exact ⟨ht, hst, rfl, [], by simp [runFrames]⟩
  | cons g gs ih =>
    intro t ht hst hemp
    simp only [runFrames] at hemp ⊢
    rcases hout : (processFrame cfg sup cls t g).2 with - | seg
    · have hu : (processFrame cfg sup cls t g).1.triggered = true ∧
          (processFrame cfg sup cls t g).1.start_time_set = true ∧
          (processFrame cfg sup cls t g).1.pre_buffer_frames
            = t.pre_buffer_frames ∧
          (processFrame cfg sup cls t g).1.current_recording
            = t.current_recording ++ [sup g] := by
        simp only [processFrame, ht] at hout ⊢
        cases hc : cls (sup g) with
        | false =>
          simp only [hc] at hout ⊢
          by_cases hgt : cfg.maxSilentChunks < t.silent_chunks + 1
          · exfalso
            simp [hgt, saveRecording, hst, List.isEmpty_iff] at hout
          · simp [hgt, hst]
        | true => simp [hc, hst]
      rw [hout] at hemp
      simp only [Option.toList_none, List.nil_append] at hemp
      obtain ⟨h1, h2, h3, ext, h4⟩ :=
        ih (processFrame cfg sup cls t g).1 hu.1 hu.2.1 hemp
      refine ⟨h1, h2, by rw [h3, hu.2.2.1], [sup g] ++ ext, ?_⟩
      rw [h4, hu.2.2.2, List.append_assoc]
    · rw [hout] at hemp
      simp at hemp

/-- C5: when a speech-classified frame arrives in `Idle`, the new
segment's frame list equals the pre-roll deque's contents at that
instant (oldest to newest, the triggering frame last), and it is a
copy, not an alias: as long as the active segment has not been closed,
the pre-roll deque is unchanged and the seeded frames stay as the
unchanged prefix of the recording. -/
theorem c5_trigger_seeds_preroll_copy {F : Type} (cfg : VadConfig)
    (sup : F → F) (cls : F → Bool) (s : VadState F) (f : F)
    (ht : s.triggered = false) (hsp : cls (sup f) = true)
    (hcap : 0 < cfg.preBufferSize) :
    (processFrame cfg sup cls s f).1.current_recording
      = pushRing cfg.preBufferSize s.pre_buffer_frames (sup f) ∧
    (processFrame cfg sup cls s f).1.current_recording.getLast?
      = some (sup f) ∧
    (processFrame cfg sup cls s f).1.triggered = true ∧
    (∀ gs : List F,
      (runFrames cfg sup cls (processFrame cfg sup cls s f).1 gs).2 = [] →
      (runFrames cfg sup cls (processFrame cfg sup cls s f).1 gs).1.pre_buffer_frames
        = (processFrame cfg sup cls s f).1.pre_buffer_frames ∧
      (runFrames cfg sup cls (processFrame cfg sup cls s f).1 gs).1.current_recording.take
          (pushRing cfg.preBufferSize s.pre_buffer_frames (sup f)).length
        = pushRing cfg.preBufferSize s.pre_buffer_frames (sup f)) := by
  have hstep : (processFrame cfg sup cls s f).1
      = { s with pre_buffer_frames :=
                    pushRing cfg.preBufferSize s.pre_buffer_frames (sup f),
                 triggered := true,
                 current_recording :=
                    pushRing cfg.preBufferSize s.pre_buffer_frames (sup f),
                 silent_chunks := 0, start_time_set := true } := by
    simp [processFrame, ht, hsp]
  refine ⟨by rw [hstep], ?_, by rw [hstep], ?_⟩
  · rw [hstep]
    exact pushRing_getLast? cfg.preBufferSize hcap s.pre_buffer_frames (sup f)
  · intro gs hemp
    obtain ⟨-, -, h3, ext, h4⟩ :=
      runFrames_no_close cfg sup cls gs (processFrame cfg sup cls s f).1
        (by rw [hstep]) (by rw [hstep]) hemp
    refine ⟨h3, ?_⟩
    rw [h4, hstep]
    exact List.take_left _ _

/-- Witness for C5 at a concrete idle state: pre-roll `[7]`
(capacity 2), speech frame 1 triggers a segment seeded `[7, 1]`. -/
theorem c5_trigger_seeds_preroll_copy_witness :
    (⟨[7], [], false, 0, false⟩ : VadState Nat).triggered = false ∧
    c4Cls (id 1) = true ∧ 0 < c2Cfg.preBufferSize ∧
    ((processFrame c2Cfg id c4Cls ⟨[7], [], false, 0, false⟩ 1).1.current_recording
        = pushRing c2Cfg.preBufferSize [7] (id 1) ∧
     (processFrame c2Cfg id c4Cls ⟨[7], [], false, 0, false⟩ 1).1.current_recording.getLast?
        = some (id 1) ∧
     (processFrame c2Cfg id c4Cls ⟨[7], [], false, 0, false⟩ 1).1.triggered = true ∧
     (∀ gs : List Nat,
       (runFrames c2Cfg id c4Cls
          (processFrame c2Cfg id c4Cls ⟨[7], [], false, 0, false⟩ 1).1 gs).2 = [] →
       (runFrames c2Cfg id c4Cls
          (processFrame c2Cfg id c4Cls ⟨[7], [], false, 0, false⟩ 1).1 gs).1.pre_buffer_frames
          = (processFrame c2Cfg id c4Cls ⟨[7], [], false, 0, false⟩ 1).1.pre_buffer_frames ∧
       (runFrames c2Cfg id c4Cls
          (processFrame c2Cfg id c4Cls ⟨[7], [], false, 0, false⟩ 1).1 gs).1.current_recording.take
            (pushRing c2Cfg.preBufferSize [7] (id 1)).length
          = pushRing c2Cfg.preBufferSize [7] (id 1))) :=
  by
  refine ⟨rfl, ?_, ?_, ?_⟩
  · decide
  · decide
  · exact c5_trigger_seeds_preroll_copy c2Cfg id c4Cls
      ⟨[7], [], false, 0, false⟩ 1 rfl (by decide) (by decide)

/-- C1 counterexample: running the spec's concrete scenario
(10 silence frames, 1 speech frame, 5 speech frames, 67 silence
frames at pre-roll capacity 10 and `max_silent_chunks` 66) persists
exactly one segment, but it holds 82 frames, not 83: the pre-roll
deque is full when the triggering frame is appended, so the oldest
frame is evicted and the segment is seeded with 10 frames, not 11. -/
theorem c1_scenario_not_83_frames :
    (runFrames c1Cfg id id initState c1Frames).2.length = 1 ∧
    ¬ (runFrames c1Cfg id id initState c1Frames).2.map List.length = [83] := by
  decide

/-- C1 (amended): the scenario yields exactly one persisted segment of
82 frames — 10 seeded at the trigger (the full pre-roll including the
triggering frame, after evicting the oldest of the 10 silence frames),
plus 5 speech frames, plus 67 trailing silence frames. -/
theorem c1_scenario_one_segment_82_frames :
    (runFrames c1Cfg id id initState c1Frames).2.length = 1 ∧
    (runFrames c1Cfg id id initState c1Frames).2.map List.length = [82] := by
  decide

/-- C2 refutation: the pipeline can duplicate audio. Because
`_reset_state` keeps the pre-roll deque, and the deque is not updated
while `Triggered`, after a segment closes it still holds frames that
were seeded into — and persisted with — that segment; the next trigger
copies them into a second segment. Feeding frames 1..6 (1 and 4
speech) persists frame 1 in both segments. -/
theorem c2_frame_persisted_twice :
    (runFrames c2Cfg id c2Cls initState [1, 2, 3, 4, 5, 6]).2
      = [[1, 2, 3], [1, 4, 5, 6]] ∧
    ((runFrames c2Cfg id c2Cls initState [1, 2, 3, 4, 5, 6]).2.countP
      (fun seg => seg.contains 1)) = 2 := by
  decide

/-- C4: while `Triggered` (with `start_time` set, as it always is when
triggered), a frame closes the segment iff it is classified silence
and the incremented counter strictly exceeds `max_silent_chunks`; a
silence frame that only reaches the threshold does not close; a speech
frame resets the counter to 0 without closing; and the silence frame
that pushes the counter to `max_silent_chunks + 1` hands the recording
(with that frame appended) to storage and returns to `Idle`. -/
theorem c4_close_iff_counter_exceeds {F : Type} (cfg : VadConfig)
    (sup : F → F) (cls : F → Bool) (s : VadState F) (f : F)
    (ht : s.triggered = true) (hst : s.start_time_set = true) :
    ((processFrame cfg sup cls s f).2 ≠ none ↔
      (cls (sup f) = false ∧ cfg.maxSilentChunks < s.silent_chunks + 1)) ∧
    (cls (sup f) = false → s.silent_chunks + 1 ≤ cfg.maxSilentChunks →
      (processFrame cfg sup cls s f).2 = none ∧
      (processFrame cfg sup cls s f).1.triggered = true ∧
      (processFrame cfg sup cls s f).1.silent_chunks = s.silent_chunks + 1) ∧
    (cls (sup f) = true →
      (processFrame cfg sup cls s f).2 = none ∧
      (processFrame cfg sup cls s f).1.triggered = true ∧
      (processFrame cfg sup cls s f).1.silent_chunks = 0) ∧
    (cls (sup f) = false → s.silent_chunks = cfg.maxSilentChunks →
      (processFrame cfg sup cls s f).2 = some (s.current_recording ++ [sup f]) ∧
      (processFrame cfg sup cls s f).1.triggered = false ∧
      (processFrame cfg sup cls s f).1.silent_chunks = 0) := by
  cases hc : cls (sup f) with
  | false =>
    by_cases hgt : cfg.maxSilentChunks < s.silent_chunks + 1
    · simp only [processFrame, ht, hc]
      simp [hgt, resetState, saveRecording, hst, List.isEmpty_iff]
    · simp only [processFrame, ht, hc]
      simp [hgt]
      omega
  | true =>
    simp only [processFrame, ht, hc]
    simp

/-- Witness for C4: at `c4State`, the silence frame 2 pushes the
counter to 2 > 1 and closes the segment `[5, 2]`. -/
theorem c4_close_iff_counter_exceeds_witness :
    c4State.triggered = true ∧ c4State.start_time_set = true ∧
    (((processFrame c2Cfg id c4Cls c4State 2).2 ≠ none ↔
        (c4Cls (id 2) = false ∧
         c2Cfg.maxSilentChunks < c4State.silent_chunks + 1)) ∧
     (c4Cls (id 2) = false →
        c4State.silent_chunks + 1 ≤ c2Cfg.maxSilentChunks →
        (processFrame c2Cfg id c4Cls c4State 2).2 = none ∧
        (processFrame c2Cfg id c4Cls c4State 2).1.triggered = true ∧
        (processFrame c2Cfg id c4Cls c4State 2).1.silent_chunks
          = c4State.silent_chunks + 1) ∧
     (c4Cls (id 2) = true →
        (processFrame c2Cfg id c4Cls c4State 2).2 = none ∧
        (processFrame c2Cfg id c4Cls c4State 2).1.triggered = true ∧
        (processFrame c2Cfg id c4Cls c4State 2).1.silent_chunks = 0) ∧
     (c4Cls (id 2) = false →
        c4State.silent_chunks = c2Cfg.maxSilentChunks →
        (processFrame c2Cfg id c4Cls c4State 2).2
          = some (c4State.current_recording ++ [id 2]) ∧
        (processFrame c2Cfg id c4Cls c4State 2).1.triggered = false ∧
        (processFrame c2Cfg id c4Cls c4State 2).1.silent_chunks = 0)) :=
  ⟨rfl, rfl,
   c4_close_iff_counter_exceeds c2Cfg id c4Cls c4State 2 rfl rfl⟩

/-- C9: stopping is idempotent with respect to persistence, for both
consumers. A first `stop()` on a `Triggered` segmenter (with
`start_time` set and a non-empty recording) hands exactly that
recording to storage; a second `stop()` immediately after persists
nothing. Likewise, a first `stop()` on a splitter holding a partial
chunk flushes exactly those frames; a second `stop()` persists
nothing. -/
theorem c9_stop_idempotent {F G : Type} (s : VadState F) (c : ChunkState G)
    (h1 : s.triggered = true) (h2 : s.start_time_set = true)
    (h3 : s.current_recording ≠ [])
    (h4 : c.frames ≠ []) (h5 : c.start_time_set = true) :
    (vadStop s).2 = some s.current_recording ∧
    (vadStop (vadStop s).1).2 = none ∧
    (chunkStop c).2 = some c.frames ∧
    (chunkStop (chunkStop c).1).2 = none := by
  refine ⟨?_, ?_, ?_, ?_⟩
  · simp [vadStop, h1, saveRecording, h2, List.isEmpty_iff, h3]
  · simp [vadStop, resetState]
  · simp [chunkStop, saveChunk, h5, List.isEmpty_iff, h4]
  · simp [chunkStop, initChunkState]

/-- A splitter state holding a partial chunk, for the C9 witness. -/
def c9Chunk : ChunkState Nat := ⟨[2], true⟩

/-- Witness for C9 at the concrete states `c4State` (triggered
segmenter holding `[5]`) and `c9Chunk` (splitter holding `[2]`). -/
theorem c9_stop_idempotent_witness :
    c4State.triggered = true ∧ c4State.start_time_set = true ∧
    c4State.current_recording ≠ [] ∧ c9Chunk.frames ≠ [] ∧
    c9Chunk.start_time_set = true ∧
    ((vadStop c4State).2 = some c4State.current_recording ∧
     (vadStop (vadStop c4State).1).2 = none ∧
     (chunkStop c9Chunk).2 = some c9Chunk.frames ∧
     (chunkStop (chunkStop c9Chunk).1).2 = none) := by
  refine ⟨rfl, rfl, ?_, ?_, rfl, ?_⟩
  · decide
  · decide
  · exact c9_stop_idempotent c4State c9Chunk rfl rfl (by decide) (by decide) rfl

/-- With a positive duration and frame length the spec's
`ceil(D/F)` target is positive. -/
theorem target_chunks_pos (D Fd : Nat) (hD : 0 < D) (hF : 0 < Fd) :
    0 < TARGET_CHUNKS_PER_FILE D Fd :=
  Nat.div_pos (by omega) hF

/-- Invariant of the splitter loop: starting below the target, every
chunk handed to storage has exactly `target` frames, and the buffer
stays below the target. -/
theorem runChunks_full_chunks {G : Type} (target : Nat) (htp : 0 < target) :
    ∀ (fs : List G) (s : ChunkState G), s.frames.length < target →
      (∀ seg ∈ (runChunks target s fs).2, seg.length = target) ∧
      (runChunks target s fs).1.frames.length < target := by
  intro fs
  induction fs with
  | nil =>
    intro s hs
    exact ⟨by simp [runChunks], by simpa [runChunks] using hs⟩
  | cons f fs ih =>
    intro s hs
    simp only [runChunks]
    by_cases hge : target ≤ s.frames.length + 1
    · have hstep : chunkProcessFrame target s f
          = (initChunkState, some (s.frames ++ [f])) := by
        simp [chunkProcessFrame, saveChunk, hge, List.isEmpty_iff]
      rw [hstep]
      obtain ⟨ha, hb⟩ := ih initChunkState (by simpa [initChunkState] using htp)
      refine ⟨?_, hb⟩
      intro seg hseg
      simp only [Option.toList_some, List.singleton_append,
        List.mem_cons] at hseg
      rcases hseg with h | h
      · subst h
        simp only [List.length_append, List.length_singleton]
        omega
      · exact ha seg h
    · have hstep : chunkProcessFrame target s f
          = (⟨s.frames ++ [f], true⟩, none) := by
        simp [chunkProcessFrame, hge]
      rw [hstep]
      obtain ⟨ha, hb⟩ := ih ⟨s.frames ++ [f], true⟩
        (by simp only [List.length_append, List.length_singleton]; omega)
      exact ⟨by simpa using ha, hb⟩

/-- Feeding the splitter exactly the frames missing to reach the
target yields the single chunk `s.frames ++ fs` and an empty reset
buffer. -/
theorem runChunks_exact_fill {G : Type} (target : Nat) :
    ∀ (fs : List G) (s : ChunkState G), s.frames.length < target →
      s.frames.length + fs.length = target →
      (runChunks target s fs).2 = [s.frames ++ fs] ∧
      (runChunks target s fs).1 = initChunkState := by
  intro fs
  induction fs with
  | nil =>
    intro s h1 h2
    exfalso
    simp only [List.length_nil, Nat.add_zero] at h2
    omega
  | cons f fs ih =>
    intro s h1 h2
    simp only [runChunks]
    by_cases hge : target ≤ s.frames.length + 1
    · have hfs : fs = [] := by
        cases fs with
        | nil => rfl
        | cons g gs =>
          exfalso
          simp only [List.length_cons] at h2
          omega
      subst hfs
      have hstep : chunkProcessFrame target s f
          = (initChunkState, some (s.frames ++ [f])) := by
        simp [chunkProcessFrame, saveChunk, hge, List.isEmpty_iff]
      rw [hstep]
      simp [runChunks]
    · have hstep : chunkProcessFrame target s f
          = (⟨s.frames ++ [f], true⟩, none) := by
        simp [chunkProcessFrame, hge]
      rw [hstep]
      have hlen1 : (⟨s.frames ++ [f], true⟩ : ChunkState G).frames.length
          = s.frames.length + 1 := by simp
      obtain ⟨ha, hb⟩ := ih ⟨s.frames ++ [f], true⟩
        (by rw [hlen1]; omega)
        (by rw [hlen1]; simp only [List.length_cons] at h2; omega)
      refine ⟨?_, hb⟩
      rw [ha]
      simp

/-- C6: in duration mode with target `ceil(D/F)` frames per file,
every chunk handed to storage during processing has exactly that many
frames; the buffer is empty right after a full chunk is saved (and
always stays below the target); feeding exactly `ceil(D/F)` frames
from a fresh state persists exactly that one chunk and leaves an empty
buffer; and the final chunk flushed by `stop()` from a below-target
buffer is strictly shorter than the target. -/
theorem c6_duration_chunk_sizes {G : Type} (D Fd : Nat)
    (hD : 0 < D) (hF : 0 < Fd) :
    (∀ (s : ChunkState G) (fs : List G),
        s.frames.length < TARGET_CHUNKS_PER_FILE D Fd →
        (∀ seg ∈ (runChunks (TARGET_CHUNKS_PER_FILE D Fd) s fs).2,
            seg.length = TARGET_CHUNKS_PER_FILE D Fd) ∧
        (runChunks (TARGET_CHUNKS_PER_FILE D Fd) s fs).1.frames.length
            < TARGET_CHUNKS_PER_FILE D Fd) ∧
    (∀ fs : List G, fs.length = TARGET_CHUNKS_PER_FILE D Fd →
        (runChunks (TARGET_CHUNKS_PER_FILE D Fd) initChunkState fs).2 = [fs] ∧
        (runChunks (TARGET_CHUNKS_PER_FILE D Fd) initChunkState fs).1.frames
            = []) ∧
    (∀ s : ChunkState G, s.frames.length < TARGET_CHUNKS_PER_FILE D Fd →
        ∀ l, (chunkStop s).2 = some l →
          l.length < TARGET_CHUNKS_PER_FILE D Fd) := by
  have htp := target_chunks_pos D Fd hD hF
  refine ⟨fun s fs hs => runChunks_full_chunks _ htp fs s hs, ?_, ?_⟩
  · intro fs hfs
    obtain ⟨ha, hb⟩ := runChunks_exact_fill (TARGET_CHUNKS_PER_FILE D Fd) fs
      initChunkState (by simpa [initChunkState] using htp)
      (by simpa [initChunkState] using hfs)
    refine ⟨?_, ?_⟩
    · rw [ha]
      rfl
    · rw [hb]
      rfl
  · intro s hs l hl
    have hlf : l = s.frames := by
      simp only [chunkStop, saveChunk] at hl
      split_ifs at hl
      exact (Option.some.inj hl).symm
    rw [hlf]
    exact hs

/-- Witness for C6 with duration 90 ms and 30 ms frames
(target 3 frames per file). -/
theorem c6_duration_chunk_sizes_witness :
    0 < 90 ∧ 0 < 30 ∧
    ((∀ (s : ChunkState Nat) (fs : List Nat),
        s.frames.length < TARGET_CHUNKS_PER_FILE 90 30 →
        (∀ seg ∈ (runChunks (TARGET_CHUNKS_PER_FILE 90 30) s fs).2,
            seg.length = TARGET_CHUNKS_PER_FILE 90 30) ∧
        (runChunks (TARGET_CHUNKS_PER_FILE 90 30) s fs).1.frames.length
            < TARGET_CHUNKS_PER_FILE 90 30) ∧
     (∀ fs : List Nat, fs.length = TARGET_CHUNKS_PER_FILE 90 30 →
        (runChunks (TARGET_CHUNKS_PER_FILE 90 30) initChunkState fs).2 = [fs] ∧
        (runChunks (TARGET_CHUNKS_PER_FILE 90 30) initChunkState fs).1.frames
            = []) ∧
     (∀ s : ChunkState Nat, s.frames.length < TARGET_CHUNKS_PER_FILE 90 30 →
        ∀ l, (chunkStop s).2 = some l →
          l.length < TARGET_CHUNKS_PER_FILE 90 30)) := by
  refine ⟨?_, ?_, ?_⟩
  · decide
  · decide
  · exact c6_duration_chunk_sizes 90 30 (by decide) (by decide)

/-- C7: suppression is best-effort and length-preserving. With no
profile the frame passes through byte-for-byte; with a profile, under
the external transform's contract that it preserves length, the
suppressed frame has the input's length; and if the transform raises,
the original frame is returned and nothing propagates. -/
theorem c7_suppress_safe (denoise : List ℚ → List ℚ → Option (List ℚ))
    (clip : List ℚ) (frame : List ℤ)
    (hlen : ∀ y c out, denoise y c = some out → out.length = y.length) :
    suppress denoise none frame = frame ∧
    (suppress denoise (some clip) frame).length = frame.length ∧
    (denoise (frame.map int16ToFloat) clip = none →
      suppress denoise (some clip) frame = frame) := by
  refine ⟨rfl, ?_, ?_⟩
  · simp only [suppress]
    rcases hd : denoise (frame.map int16ToFloat) clip with - | out
    · rfl
    · simp only [List.length_map]
      rw [hlen _ _ _ hd, List.length_map]
  · intro hd
    simp [suppress, hd]

/-- The identity transform, standing in for a successful
`nr.reduce_noise` call in the C7 witness. -/
def idDenoise (y c : List ℚ) : Option (List ℚ) := some y

/-- The identity transform satisfies the external length contract. -/
theorem idDenoise_len :
    ∀ y c out : List ℚ, idDenoise y c = some out → out.length = y.length := by
  intro y c out h
  simp only [idDenoise] at h
  injection h with h2
  rw [h2]

/-- Witness for C7 with the identity transform, profile `[0]` and
frame `[1, -2]`. -/
theorem c7_suppress_safe_witness :
    (∀ y c out : List ℚ, idDenoise y c = some out → out.length = y.length) ∧
    (suppress idDenoise none [1, -2] = [1, -2] ∧
     (suppress idDenoise (some [0]) [1, -2]).length
        = ([1, -2] : List ℤ).length ∧
     (idDenoise ([1, -2].map int16ToFloat) [0] = none →
        suppress idDenoise (some [0]) [1, -2] = [1, -2])) :=
  ⟨idDenoise_len, c7_suppress_safe idDenoise [0] [1, -2] idDenoise_len⟩

/-- C8 counterexample: a `learn_noise_profile` call with empty input
does not leave a previously learned profile in place — the code sets
`noise_clip = None` unconditionally on empty input, so the learned
profile `[1]` is discarded. -/
theorem c8_learned_profile_discarded :
    learn_noise_profile (some [1]) [] = none ∧
    ¬ learn_noise_profile (some [1]) [] = some [1] := by
  refine ⟨rfl, ?_⟩
  simp [learn_noise_profile]

/-- C8 (amended): a `learn_noise_profile` call with empty input does
not raise and always results in an unset profile: it stays unset if it
was unset, but a previously learned profile is discarded rather than
kept; afterwards suppression is pass-through. -/
theorem c8_empty_learn_unsets_profile (prev : Option (List ℚ)) :
    learn_noise_profile prev [] = none ∧
    learn_noise_profile none [] = none ∧
    (∀ (denoise : List ℚ → List ℚ → Option (List ℚ)) (frame : List ℤ),
      suppress denoise (learn_noise_profile prev []) frame = frame) :=
  ⟨rfl, rfl, fun _ _ => rfl⟩

/-- Witness for C3's refutation at a concrete reachable `Triggered`
state: trigger with one speech frame, then poll an empty queue 200
times (far beyond twice the 66-chunk silence threshold); the segment
is never saved. -/
theorem c3_stall_close_never_fires_witness :
    Reachable c1Cfg id id
      (processEvent c1Cfg id id initState (VadEvent.frame true)).1 ∧
    (processEvent c1Cfg id id initState (VadEvent.frame true)).1.triggered
      = true ∧
    runEvents c1Cfg id id
        (processEvent c1Cfg id id initState (VadEvent.frame true)).1
        (List.replicate 200 VadEvent.empty)
      = ((processEvent c1Cfg id id initState (VadEvent.frame true)).1, []) :=
  ⟨Reachable.step (VadEvent.frame true) Reachable.init, by decide,
   c3_stall_close_never_fires c1Cfg id id _
     (Reachable.step (VadEvent.frame true) Reachable.init) 200⟩

